import Mathlib

/-!
Verification of the rings-simulator geometry core.

The development shallowly embeds the geometry functions of the simulator:
marker placement (`updateLocationMarker`), the planet-mesh rotation
(`updateEarthRotation` / `updateView`), the surface-camera pose
(`updatePictureInPicture`), the picking inverse (`onEarthClick`) and the
named-location lookup (`findClosestLocation`).  Machine floats are idealised
as real numbers; each definition mirrors its source function componentwise,
including the library semantics of the vector helpers it calls
(`Vector3.normalize` divides by `length() || 1`, so the zero vector is
returned unchanged; Euler angles use the default XYZ order whose matrix is
`Rx * Ry * Rz`).
-/

open Real

noncomputable section

/-- A 3-component vector, mirroring `THREE.Vector3`. -/
structure Vec3 where
  x : ℝ
  y : ℝ
  z : ℝ

@[ext] theorem Vec3.ext3 {a b : Vec3} (hx : a.x = b.x) (hy : a.y = b.y)
    (hz : a.z = b.z) : a = b := by
  cases a; cases b; simp_all

instance : Add Vec3 := ⟨fun a b => ⟨a.x + b.x, a.y + b.y, a.z + b.z⟩⟩

instance : Sub Vec3 := ⟨fun a b => ⟨a.x - b.x, a.y - b.y, a.z - b.z⟩⟩

instance : SMul ℝ Vec3 := ⟨fun c v => ⟨c * v.x, c * v.y, c * v.z⟩⟩

@[simp] theorem Vec3.add_x (a b : Vec3) : (a + b).x = a.x + b.x := rfl

@[simp] theorem Vec3.add_y (a b : Vec3) : (a + b).y = a.y + b.y := rfl

@[simp] theorem Vec3.add_z (a b : Vec3) : (a + b).z = a.z + b.z := rfl

@[simp] theorem Vec3.sub_x (a b : Vec3) : (a - b).x = a.x - b.x := rfl

@[simp] theorem Vec3.sub_y (a b : Vec3) : (a - b).y = a.y - b.y := rfl

@[simp] theorem Vec3.sub_z (a b : Vec3) : (a - b).z = a.z - b.z := rfl

@[simp] theorem Vec3.smul_x (c : ℝ) (v : Vec3) : (c • v).x = c * v.x := rfl

@[simp] theorem Vec3.smul_y (c : ℝ) (v : Vec3) : (c • v).y = c * v.y := rfl

@[simp] theorem Vec3.smul_z (c : ℝ) (v : Vec3) : (c • v).z = c * v.z := rfl

/-- `THREE.Vector3.dot`. -/
def Vec3.dot (a b : Vec3) : ℝ := a.x * b.x + a.y * b.y + a.z * b.z

/-- `THREE.Vector3.crossVectors`. -/
def Vec3.cross (a b : Vec3) : Vec3 :=
  ⟨a.y * b.z - a.z * b.y, a.z * b.x - a.x * b.z, a.x * b.y - a.y * b.x⟩

/-- `THREE.Vector3.length`. -/
def Vec3.length (v : Vec3) : ℝ := Real.sqrt (v.x ^ 2 + v.y ^ 2 + v.z ^ 2)

/-- `THREE.Vector3.normalize`: the vector divided by `length() || 1`.  Over ℝ
a vector of length 0 is the zero vector, and `0⁻¹ • 0 = 0`, so the junk value
`0⁻¹` reproduces the library's guard exactly. -/
def Vec3.normalize (v : Vec3) : Vec3 := v.length⁻¹ • v

theorem Vec3.length_nonneg (v : Vec3) : 0 ≤ v.length := Real.sqrt_nonneg _

theorem Vec3.length_smul (c : ℝ) (v : Vec3) :
    (c • v).length = |c| * v.length := by
  unfold Vec3.length
  rw [show (c • v).x ^ 2 + (c • v).y ^ 2 + (c • v).z ^ 2
        = c ^ 2 * (v.x ^ 2 + v.y ^ 2 + v.z ^ 2) by simp; ring,
    Real.sqrt_mul (sq_nonneg c), Real.sqrt_sq_eq_abs]

theorem Vec3.length_eq_zero_iff (v : Vec3) : v.length = 0 ↔ v = ⟨0, 0, 0⟩ := by
  unfold Vec3.length
  rw [Real.sqrt_eq_zero' ]
  constructor
  · intro h
    have hx : v.x = 0 := by nlinarith [sq_nonneg v.x, sq_nonneg v.y, sq_nonneg v.z]
    have hy : v.y = 0 := by nlinarith [sq_nonneg v.x, sq_nonneg v.y, sq_nonneg v.z]
    have hz : v.z = 0 := by nlinarith [sq_nonneg v.x, sq_nonneg v.y, sq_nonneg v.z]
    ext <;> simp [hx, hy, hz]
  · intro h
    rw [h]; norm_num

theorem Vec3.length_sq (v : Vec3) :
    v.length ^ 2 = v.x ^ 2 + v.y ^ 2 + v.z ^ 2 :=
  Real.sq_sqrt (by positivity)

theorem Vec3.normalize_length {v : Vec3} (h : v.length ≠ 0) :
    v.normalize.length = 1 := by
  unfold Vec3.normalize
  rw [Vec3.length_smul, abs_of_nonneg (inv_nonneg.mpr v.length_nonneg),
    inv_mul_cancel₀ h]

theorem Vec3.normalize_of_length_one {v : Vec3} (h : v.length = 1) :
    v.normalize = v := by
  unfold Vec3.normalize
  rw [h]; ext <;> simp

/-- `THREE.MathUtils.degToRad`. -/
def degToRad (d : ℝ) : ℝ := d * (Real.pi / 180)

/-- `THREE.MathUtils.radToDeg`. -/
def radToDeg (r : ℝ) : ℝ := r * (180 / Real.pi)

theorem radToDeg_degToRad (d : ℝ) : radToDeg (degToRad d) = d := by
  unfold radToDeg degToRad
  field_simp

/-- `const EARTH_RADIUS = 6371`. -/
def EARTH_RADIUS : ℝ := 6371

/-- Rotation about the y axis, as `THREE.Matrix4.makeRotationY` applies it to
a vector. -/
def rotY (t : ℝ) (v : Vec3) : Vec3 :=
  ⟨v.x * Real.cos t + v.z * Real.sin t, v.y,
    -(v.x * Real.sin t) + v.z * Real.cos t⟩

/-- Rotation about the z axis, as `THREE.Matrix4.makeRotationZ` applies it to
a vector. -/
def rotZ (t : ℝ) (v : Vec3) : Vec3 :=
  ⟨v.x * Real.cos t - v.y * Real.sin t, v.x * Real.sin t + v.y * Real.cos t,
    v.z⟩

theorem rotY_length (t : ℝ) (v : Vec3) : (rotY t v).length = v.length := by
  unfold Vec3.length rotY
  congr 1
  simp only
  nlinarith [sin_sq_add_cos_sq t]

theorem rotZ_length (t : ℝ) (v : Vec3) : (rotZ t v).length = v.length := by
  unfold Vec3.length rotZ
  congr 1
  simp only
  nlinarith [sin_sq_add_cos_sq t]

theorem rotY_neg_rotY (t : ℝ) (v : Vec3) : rotY (-t) (rotY t v) = v := by
  unfold rotY
  ext
  · simp only [Real.cos_neg, Real.sin_neg]
    linear_combination v.x * sin_sq_add_cos_sq t
  · rfl
  · simp only [Real.cos_neg, Real.sin_neg]
    linear_combination v.z * sin_sq_add_cos_sq t

theorem rotZ_neg_rotZ (t : ℝ) (v : Vec3) : rotZ (-t) (rotZ t v) = v := by
  unfold rotZ
  ext
  · simp only [Real.cos_neg, Real.sin_neg]
    linear_combination v.x * sin_sq_add_cos_sq t
  · simp only [Real.cos_neg, Real.sin_neg]
    linear_combination v.y * sin_sq_add_cos_sq t
  · rfl

theorem rotY_smul (t c : ℝ) (v : Vec3) : rotY t (c • v) = c • rotY t v := by
  unfold rotY; ext <;> simp <;> ring

theorem rotZ_smul (t c : ℝ) (v : Vec3) : rotZ t (c • v) = c • rotZ t v := by
  unfold rotZ; ext <;> simp <;> ring

/-- The mutable settings record of the simulator (the fields the geometry
core reads). -/
structure Settings where
  latitude : ℝ
  longitude : ℝ
  timeOfDay : ℝ
  textureRotation : ℝ
  earthTilt : ℝ
  pipRotation : ℝ
  pipTilt : ℝ
  pipHeight : ℝ
  pipFov : ℝ

/-- The raw (unrotated) spherical position of `updateLocationMarker`:
`phi = degToRad(90 - latitude)`, `theta = degToRad(longitude)`,
`(R sin phi cos theta, R cos phi, R sin phi sin theta)`. -/
def rawPosition (lat lon : ℝ) : Vec3 :=
  ⟨EARTH_RADIUS * Real.sin (degToRad (90 - lat)) * Real.cos (degToRad lon),
    EARTH_RADIUS * Real.cos (degToRad (90 - lat)),
    EARTH_RADIUS * Real.sin (degToRad (90 - lat)) * Real.sin (degToRad lon)⟩

/-- The combined rotation of `updateLocationMarker`:
`rotationMatrix = tiltMatrix * textureRotationMatrix`, i.e. the texture
rotation about y is applied first, then the tilt about z. -/
def bodyRotate (tex tiltDeg : ℝ) (v : Vec3) : Vec3 :=
  rotZ (degToRad tiltDeg) (rotY tex v)

/-- The rotated marker position before the surface-offset scaling (radius
`EARTH_RADIUS`). -/
def markerRaw (s : Settings) : Vec3 :=
  bodyRotate s.textureRotation s.earthTilt (rawPosition s.latitude s.longitude)

/-- `normal` of `updateLocationMarker`: the normalized rotated position. -/
def markerNormal (s : Settings) : Vec3 := (markerRaw s).normalize

/-- `const surfaceOffset = 1.02` of `updateLocationMarker`. -/
def surfaceOffset : ℝ := 1.02

/-- `this.locationMarker.position` as set by `updateLocationMarker`:
the normalized rotated position scaled by `EARTH_RADIUS * surfaceOffset`. -/
def markerPosition (s : Settings) : Vec3 :=
  (EARTH_RADIUS * surfaceOffset) • (markerRaw s).normalize

/-- A quaternion, mirroring `THREE.Quaternion` (x, y, z, w). -/
structure Quat where
  x : ℝ
  y : ℝ
  z : ℝ
  w : ℝ

/-- `THREE.Quaternion.length`. -/
def Quat.qlength (q : Quat) : ℝ :=
  Real.sqrt (q.x ^ 2 + q.y ^ 2 + q.z ^ 2 + q.w ^ 2)

/-- `THREE.Quaternion.normalize`: identity quaternion when the length is 0,
otherwise componentwise division by the length. -/
def Quat.normalizeQ (q : Quat) : Quat :=
  if q.qlength = 0 then ⟨0, 0, 0, 1⟩
  else ⟨q.x / q.qlength, q.y / q.qlength, q.z / q.qlength, q.w / q.qlength⟩

/-- `Number.EPSILON` of JavaScript. -/
def numberEpsilon : ℝ := 1 / 2 ^ 52

/-- `THREE.Quaternion.setFromUnitVectors`. -/
def setFromUnitVectors (vFrom vTo : Vec3) : Quat :=
  if vFrom.dot vTo + 1 < numberEpsilon then
    if |vFrom.z| < |vFrom.x| then Quat.normalizeQ ⟨-vFrom.y, vFrom.x, 0, 0⟩
    else Quat.normalizeQ ⟨0, -vFrom.z, vFrom.y, 0⟩
  else
    Quat.normalizeQ ⟨vFrom.y * vTo.z - vFrom.z * vTo.y,
      vFrom.z * vTo.x - vFrom.x * vTo.z,
      vFrom.x * vTo.y - vFrom.y * vTo.x, vFrom.dot vTo + 1⟩

/-- `this.locationMarker.quaternion` as set by `updateLocationMarker`:
the shortest-arc rotation from the canonical up axis `(0,1,0)` to the
surface normal. -/
def markerQuaternion (s : Settings) : Quat :=
  setFromUnitVectors ⟨0, 1, 0⟩ (markerNormal s)

/-- The full observable effect of `updateLocationMarker` on the marker
object: its position and its orientation quaternion. -/
def updateLocationMarker (s : Settings) : Vec3 × Quat :=
  (markerPosition s, markerQuaternion s)

/-- `hourAngle` as computed in `updateView` and `updatePictureInPicture`:
`(timeOfDay / 24) * π * 2`. -/
def hourAngle (tod : ℝ) : ℝ := tod / 24 * Real.pi * 2

/-- The rotation applied to the planet mesh.  `updateEarthRotation` sets
`earth.rotation = (0, textureRotation, degToRad earthTilt)` and `updateView`
then overwrites `earth.rotation.y = textureRotation + hourAngle`.  Three.js
Euler angles use the default XYZ order, whose matrix is `Rx * Ry * Rz`, so
the mesh applies the tilt about z first and the y spin second. -/
def meshRotate (s : Settings) (v : Vec3) : Vec3 :=
  rotY (s.textureRotation + hourAngle s.timeOfDay)
    (rotZ (degToRad s.earthTilt) v)

/-- `surfaceNormal` of `updatePictureInPicture`: the marker position,
normalized. -/
def surfaceNormal (s : Settings) : Vec3 := (markerPosition s).normalize

/-- `this.pipCamera.up` as set by `updatePictureInPicture`. -/
def pipUp (s : Settings) : Vec3 := surfaceNormal s

/-- `cameraPos` of `updatePictureInPicture`: the surface normal scaled by
`EARTH_RADIUS + pipHeight`. -/
def pipCameraPos (s : Settings) : Vec3 :=
  (EARTH_RADIUS + s.pipHeight) • surfaceNormal s

/-- `referenceVector` of `updatePictureInPicture`: world up `(0,1,0)`,
replaced by `(1,0,0)` when `|surfaceNormal.y| > 0.9`. -/
def referenceVector (s : Settings) : Vec3 :=
  if 0.9 < |(surfaceNormal s).y| then ⟨1, 0, 0⟩ else ⟨0, 1, 0⟩

/-- `eastVector` of `updatePictureInPicture`. -/
def eastVector (s : Settings) : Vec3 :=
  (Vec3.cross (referenceVector s) (surfaceNormal s)).normalize

/-- `northVector` of `updatePictureInPicture`. -/
def northVector (s : Settings) : Vec3 :=
  (Vec3.cross (surfaceNormal s) (eastVector s)).normalize

/-- `totalRotation` of `updatePictureInPicture`: hour angle plus the
user-controlled rotation. -/
def totalRotation (s : Settings) : ℝ := hourAngle s.timeOfDay + s.pipRotation

/-- `viewDirection` of `updatePictureInPicture` before the defensive
re-projection: the normalized tangent-plane blend
`sin(totalRotation)·east + cos(totalRotation)·north`. -/
def viewDirectionPre (s : Settings) : Vec3 :=
  (Real.sin (totalRotation s) • eastVector s
    + Real.cos (totalRotation s) • northVector s).normalize

/-- `viewDirection` after the corrective re-projection of
`updatePictureInPicture`: when `|viewDirection · normal| > 0.001` the
component along the normal is subtracted and the result renormalized. -/
def viewDirection (s : Settings) : Vec3 :=
  if 0.001 < |(viewDirectionPre s).dot (surfaceNormal s)| then
    (viewDirectionPre s
      - ((viewDirectionPre s).dot (surfaceNormal s)) • surfaceNormal s).normalize
  else viewDirectionPre s

/-- `lookDirection` of `updatePictureInPicture`: the normalized blend of the
tangent view direction (weight `cos tiltRad`) and the surface normal
(weight `sin tiltRad`), with `tiltRad = degToRad pipTilt`. -/
def lookDirection (s : Settings) : Vec3 :=
  (Real.cos (degToRad s.pipTilt) • viewDirection s
    + Real.sin (degToRad s.pipTilt) • surfaceNormal s).normalize

/-- `target` of `updatePictureInPicture`: the camera position plus the look
direction scaled by `EARTH_RADIUS * 5`. -/
def lookTarget (s : Settings) : Vec3 :=
  pipCameraPos s + (EARTH_RADIUS * 5) • lookDirection s

/-- `atan2`, the JavaScript `Math.atan2(y, x)` over the reals: the argument
of the complex number `x + y·i`, valued in `(-π, π]` with `atan2 0 0 = 0`. -/
def atan2 (y x : ℝ) : ℝ := Complex.arg ⟨x, y⟩

/-- `untiltedPoint` of `onEarthClick`: the hit point with the two body
rotations undone in reverse order (tilt inverse first, then texture-rotation
inverse). -/
def pickUntilted (p : Vec3) (tex tiltDeg : ℝ) : Vec3 :=
  rotY (-tex) (rotZ (-degToRad tiltDeg) p)

/-- The latitude computed by `onEarthClick`:
`90 - radToDeg (acos (clamp (y / radius)))`. -/
def pickLatitude (p : Vec3) (tex tiltDeg : ℝ) : ℝ :=
  90 - radToDeg (Real.arccos (max (-1) (min 1
    ((pickUntilted p tex tiltDeg).y / (pickUntilted p tex tiltDeg).length))))

/-- The longitude computed by `onEarthClick`: `radToDeg (atan2 z x)`. -/
def pickLongitude (p : Vec3) (tex tiltDeg : ℝ) : ℝ :=
  radToDeg (atan2 (pickUntilted p tex tiltDeg).z (pickUntilted p tex tiltDeg).x)

/-- The geographic coordinate recovered by the picking inverse of
`onEarthClick`. -/
def pickGeo (p : Vec3) (tex tiltDeg : ℝ) : ℝ × ℝ :=
  (pickLatitude p tex tiltDeg, pickLongitude p tex tiltDeg)

/-- A named location of `src/locations.ts`. -/
structure Location where
  name : String
  latitude : ℝ
  longitude : ℝ

/-- The catalogue `locations` of `src/locations.ts`. -/
def locations : List Location :=
  [⟨"New York", 40.7128, 74.0061⟩,
    ⟨"Tokyo", 35.6833, -139.7667⟩,
    ⟨"Rio de Janeiro", -22.544, 43.1729⟩,
    ⟨"Sydney", -33.8688, -151.2093⟩,
    ⟨"Cape Town", -33.9249, -18.4241⟩,
    ⟨"Dubai", 25.2048, -55.2708⟩,
    ⟨"Reykjavik", 64.1466, 21.9426⟩,
    ⟨"Mount Everest", 27.9881, -86.925⟩]

/-- `findClosestLocation`: the first catalogued location within 2 degrees of
the given coordinate in both latitude and longitude. -/
def findClosestLocation (la lo : ℝ) : Option Location :=
  locations.find? fun loc =>
    decide (|loc.latitude - la| < 2 ∧ |loc.longitude - lo| < 2)

/-- The label `onEarthClick` leaves in `settings.selectedLocation` after a
successful pick: it first writes "Custom" and then overwrites it with the
name found by `findClosestLocation`, when there is one. -/
def pickedLabel (la lo : ℝ) : String :=
  match findClosestLocation la lo with
  | some loc => loc.name
  | none => "Custom"

/-- The values the user tilt can take: `pipTilt` starts at 70 and is only
ever reassigned by the PIP mousemove handler, which clamps
`tiltAngle - deltaY * 0.2` into `[10, 170]` before storing it. -/
inductive ReachableTilt : ℝ → Prop
  | init : ReachableTilt 70
  | dragMove (t d : ℝ) : ReachableTilt t →
      ReachableTilt (max 10 (min 170 (t - d * 0.2)))

theorem Vec3.smul_assoc3 (c d : ℝ) (v : Vec3) : c • (d • v) = (c * d) • v := by
  ext <;> simp <;> ring

theorem Vec3.one_smul3 (v : Vec3) : (1 : ℝ) • v = v := by
  ext <;> simp

theorem Vec3.normalize_smul_pos {c : ℝ} (hc : 0 < c) (v : Vec3) :
    (c • v).normalize = v.normalize := by
  unfold Vec3.normalize
  rw [Vec3.length_smul, abs_of_pos hc, Vec3.smul_assoc3]
  rw [mul_inv, mul_comm c⁻¹, mul_assoc, inv_mul_cancel₀ hc.ne', mul_one]

theorem pickUntilted_bodyRotate (tex tiltDeg : ℝ) (v : Vec3) :
    pickUntilted (bodyRotate tex tiltDeg v) tex tiltDeg = v := by
  unfold pickUntilted bodyRotate
  rw [rotZ_neg_rotZ, rotY_neg_rotY]

theorem pickUntilted_smul (c tex tiltDeg : ℝ) (p : Vec3) :
    pickUntilted (c • p) tex tiltDeg = c • pickUntilted p tex tiltDeg := by
  unfold pickUntilted
  rw [rotZ_smul, rotY_smul]

theorem rawPosition_length (lat lon : ℝ) :
    (rawPosition lat lon).length = EARTH_RADIUS := by
  have h : (rawPosition lat lon).x ^ 2 + (rawPosition lat lon).y ^ 2
      + (rawPosition lat lon).z ^ 2 = EARTH_RADIUS ^ 2 := by
    unfold rawPosition
    simp only
    linear_combination
      (EARTH_RADIUS ^ 2 * Real.sin (degToRad (90 - lat)) ^ 2)
        * sin_sq_add_cos_sq (degToRad lon)
      + EARTH_RADIUS ^ 2 * sin_sq_add_cos_sq (degToRad (90 - lat))
  unfold Vec3.length
  rw [h, Real.sqrt_sq (by norm_num [EARTH_RADIUS])]

theorem bodyRotate_length (tex tiltDeg : ℝ) (v : Vec3) :
    (bodyRotate tex tiltDeg v).length = v.length := by
  unfold bodyRotate
  rw [rotZ_length, rotY_length]

theorem markerRaw_length (s : Settings) :
    (markerRaw s).length = EARTH_RADIUS := by
  unfold markerRaw
  rw [bodyRotate_length, rawPosition_length]

theorem markerPosition_eq (s : Settings) :
    markerPosition s = surfaceOffset • markerRaw s := by
  unfold markerPosition Vec3.normalize
  rw [Vec3.smul_assoc3, markerRaw_length]
  congr 1
  norm_num [EARTH_RADIUS, surfaceOffset]

theorem atan2_mul_cos_sin {k t : ℝ} (hk : 0 < k)
    (ht : t ∈ Set.Ioc (-Real.pi) Real.pi) :
    atan2 (k * Real.sin t) (k * Real.cos t) = t := by
  unfold atan2
  have h : (⟨k * Real.cos t, k * Real.sin t⟩ : ℂ)
      = (k : ℂ) * ((Real.cos t : ℂ) + (Real.sin t : ℂ) * Complex.I) := by
    apply Complex.ext <;> simp [Complex.cos_ofReal_re, Complex.sin_ofReal_re]
  rw [h, Complex.ofReal_cos, Complex.ofReal_sin,
    Complex.arg_mul_cos_add_sin_mul_I hk ht]

theorem pickGeo_roundtrip (lat lon tex tiltDeg c : ℝ) (hc : 0 < c)
    (hlat1 : -89 ≤ lat) (hlat2 : lat ≤ 89)
    (hlon1 : -180 < lon) (hlon2 : lon ≤ 180) :
    pickGeo (c • bodyRotate tex tiltDeg (rawPosition lat lon)) tex tiltDeg
      = (lat, lon) := by
  have hpi := Real.pi_pos
  have hq : pickUntilted (c • bodyRotate tex tiltDeg (rawPosition lat lon))
      tex tiltDeg = c • rawPosition lat lon := by
    rw [pickUntilted_smul, pickUntilted_bodyRotate]
  have hφ0 : 0 < degToRad (90 - lat) := by unfold degToRad; nlinarith
  have hφπ : degToRad (90 - lat) < Real.pi := by unfold degToRad; nlinarith
  have hlen : (c • rawPosition lat lon).length = c * EARTH_RADIUS := by
    rw [Vec3.length_smul, rawPosition_length, abs_of_pos hc]
  have hRc : c * EARTH_RADIUS ≠ 0 := by
    have : (0:ℝ) < EARTH_RADIUS := by norm_num [EARTH_RADIUS]
    positivity
  have hlatEq : pickLatitude (c • bodyRotate tex tiltDeg (rawPosition lat lon))
      tex tiltDeg = lat := by
    unfold pickLatitude
    rw [hq, hlen]
    rw [show (c • rawPosition lat lon).y
        = (c * EARTH_RADIUS) * Real.cos (degToRad (90 - lat)) by
      simp [rawPosition]; ring]
    rw [mul_div_cancel_left₀ _ hRc]
    rw [min_eq_right (Real.cos_le_one _), max_eq_right (Real.neg_one_le_cos _)]
    rw [Real.arccos_cos hφ0.le hφπ.le, radToDeg_degToRad]
    ring
  have hsφ : 0 < Real.sin (degToRad (90 - lat)) :=
    Real.sin_pos_of_pos_of_lt_pi hφ0 hφπ
  have hlonEq : pickLongitude (c • bodyRotate tex tiltDeg (rawPosition lat lon))
      tex tiltDeg = lon := by
    unfold pickLongitude
    rw [hq]
    have hk : 0 < c * (EARTH_RADIUS * Real.sin (degToRad (90 - lat))) :=
      mul_pos hc (mul_pos (by norm_num [EARTH_RADIUS]) hsφ)
    rw [show (c • rawPosition lat lon).z
        = (c * (EARTH_RADIUS * Real.sin (degToRad (90 - lat))))
          * Real.sin (degToRad lon) by simp [rawPosition]; ring]
    rw [show (c • rawPosition lat lon).x
        = (c * (EARTH_RADIUS * Real.sin (degToRad (90 - lat))))
          * Real.cos (degToRad lon) by simp [rawPosition]; ring]
    rw [atan2_mul_cos_sin hk ⟨by unfold degToRad; nlinarith,
      by unfold degToRad; nlinarith⟩]
    exact radToDeg_degToRad lon
  unfold pickGeo
  rw [hlatEq, hlonEq]

theorem markerPosition_length (s : Settings) :
    (markerPosition s).length = EARTH_RADIUS * surfaceOffset := by
  rw [markerPosition_eq, Vec3.length_smul, markerRaw_length,
    abs_of_nonneg (by norm_num [surfaceOffset] : (0:ℝ) ≤ surfaceOffset)]
  ring

theorem surfaceNormal_eq (s : Settings) : surfaceNormal s = markerNormal s := by
  unfold surfaceNormal markerNormal
  rw [markerPosition_eq]
  exact Vec3.normalize_smul_pos (by norm_num [surfaceOffset]) _

theorem surfaceNormal_length (s : Settings) : (surfaceNormal s).length = 1 := by
  unfold surfaceNormal
  apply Vec3.normalize_length
  rw [markerPosition_length]
  norm_num [EARTH_RADIUS, surfaceOffset]

/-- C1: feeding the forward-placed marker's surface point (the rotated
position at radius `EARTH_RADIUS`, before the 1.02 offset scaling) into the
picking inverse of `onEarthClick` reproduces the original latitude and
longitude within `1e-3` degrees, for every latitude in `[-89, 89]`, every
longitude in `(-180, 180]` and any `textureRotation` and `earthTilt`. -/
theorem roundtrip_pick_placeMarker {lat lon tex tiltDeg : ℝ}
    (hlat1 : -89 ≤ lat) (hlat2 : lat ≤ 89)
    (hlon1 : -180 < lon) (hlon2 : lon ≤ 180) :
    |(pickGeo (bodyRotate tex tiltDeg (rawPosition lat lon)) tex tiltDeg).1
        - lat| ≤ 1 / 1000 ∧
      |(pickGeo (bodyRotate tex tiltDeg (rawPosition lat lon)) tex tiltDeg).2
        - lon| ≤ 1 / 1000 := by
  have h := pickGeo_roundtrip lat lon tex tiltDeg 1 one_pos hlat1 hlat2 hlon1 hlon2
  rw [Vec3.one_smul3] at h
  rw [h]
  norm_num

/-- Witness for the round-trip theorem at latitude 0, longitude 0, texture
rotation 0, tilt 0. -/
theorem roundtrip_pick_placeMarker_witness :
    ((-89 : ℝ) ≤ 0 ∧ (0 : ℝ) ≤ 89 ∧ (-180 : ℝ) < 0 ∧ (0 : ℝ) ≤ 180) ∧
      |(pickGeo (bodyRotate 0 0 (rawPosition 0 0)) 0 0).1 - 0| ≤ 1 / 1000 ∧
      |(pickGeo (bodyRotate 0 0 (rawPosition 0 0)) 0 0).2 - 0| ≤ 1 / 1000 :=
  ⟨⟨by norm_num, by norm_num, by norm_num, by norm_num⟩,
    roundtrip_pick_placeMarker (by norm_num) (by norm_num) (by norm_num)
      (by norm_num)⟩

/-- C3: the surface camera's up vector equals the normalized marker position,
and both equal the marker's outward surface normal `markerNormal`, for every
settings record. -/
theorem pip_up_parallel_marker_normal (s : Settings) :
    pipUp s = (markerPosition s).normalize ∧ pipUp s = markerNormal s :=
  ⟨rfl, surfaceNormal_eq s⟩

theorem Vec3.dot_comm (a b : Vec3) : a.dot b = b.dot a := by
  unfold Vec3.dot; ring

theorem Vec3.dot_smul_left (c : ℝ) (a b : Vec3) :
    (c • a).dot b = c * a.dot b := by
  unfold Vec3.dot; simp; ring

theorem Vec3.dot_add_left (a b c : Vec3) :
    (a + b).dot c = a.dot c + b.dot c := by
  unfold Vec3.dot; simp; ring

theorem cross_dot_left (a b : Vec3) : (Vec3.cross a b).dot a = 0 := by
  unfold Vec3.cross Vec3.dot; simp; ring

theorem cross_dot_right (a b : Vec3) : (Vec3.cross a b).dot b = 0 := by
  unfold Vec3.cross Vec3.dot; simp; ring

theorem cross_lengthSq (a b : Vec3) :
    (Vec3.cross a b).length ^ 2
      = a.length ^ 2 * b.length ^ 2 - (a.dot b) ^ 2 := by
  rw [Vec3.length_sq, Vec3.length_sq, Vec3.length_sq]
  unfold Vec3.cross Vec3.dot
  simp only
  ring

theorem length_eq_one_of_sq {v : Vec3} (h : v.length ^ 2 = 1) :
    v.length = 1 := by
  nlinarith [v.length_nonneg, sq_nonneg (v.length - 1), sq_nonneg (v.length + 1)]

theorem length_sq_combo (a b : Vec3) (p q : ℝ) :
    (p • a + q • b).length ^ 2
      = p ^ 2 * a.length ^ 2 + 2 * p * q * (a.dot b) + q ^ 2 * b.length ^ 2 := by
  rw [Vec3.length_sq, Vec3.length_sq, Vec3.length_sq]
  unfold Vec3.dot
  simp
  ring

theorem surfaceNormal_sq_sum (s : Settings) :
    (surfaceNormal s).x ^ 2 + (surfaceNormal s).y ^ 2
      + (surfaceNormal s).z ^ 2 = 1 := by
  rw [← Vec3.length_sq, surfaceNormal_length]
  norm_num

theorem eastCross_lengthSq_pos (s : Settings) :
    0 < (Vec3.cross (referenceVector s) (surfaceNormal s)).length ^ 2 := by
  have hnsq := surfaceNormal_sq_sum s
  rw [cross_lengthSq]
  unfold referenceVector
  by_cases h : (0.9 : ℝ) < |(surfaceNormal s).y|
  · rw [if_pos h]
    have hy2 : (0.81 : ℝ) < (surfaceNormal s).y ^ 2 := by
      nlinarith [sq_abs (surfaceNormal s).y]
    have hl : (Vec3.length ⟨1, 0, 0⟩ : ℝ) ^ 2 = 1 := by
      rw [Vec3.length_sq]; norm_num
    have hd : (Vec3.dot ⟨1, 0, 0⟩ (surfaceNormal s)) = (surfaceNormal s).x := by
      unfold Vec3.dot; simp
    rw [hl, hd, surfaceNormal_length]
    nlinarith [sq_nonneg (surfaceNormal s).z]
  · rw [if_neg h]
    push_neg at h
    have hy2 : (surfaceNormal s).y ^ 2 ≤ (0.81 : ℝ) := by
      nlinarith [sq_abs (surfaceNormal s).y, abs_nonneg (surfaceNormal s).y]
    have hl : (Vec3.length ⟨0, 1, 0⟩ : ℝ) ^ 2 = 1 := by
      rw [Vec3.length_sq]; norm_num
    have hd : (Vec3.dot ⟨0, 1, 0⟩ (surfaceNormal s)) = (surfaceNormal s).y := by
      unfold Vec3.dot; simp
    rw [hl, hd, surfaceNormal_length]
    nlinarith

theorem eastVector_length (s : Settings) : (eastVector s).length = 1 := by
  unfold eastVector
  apply Vec3.normalize_length
  intro h0
  have hp := eastCross_lengthSq_pos s
  rw [h0] at hp
  norm_num at hp

theorem eastVector_dot_normal (s : Settings) :
    (eastVector s).dot (surfaceNormal s) = 0 := by
  unfold eastVector Vec3.normalize
  rw [Vec3.dot_smul_left, cross_dot_right, mul_zero]

theorem northCross_length (s : Settings) :
    (Vec3.cross (surfaceNormal s) (eastVector s)).length = 1 := by
  apply length_eq_one_of_sq
  rw [cross_lengthSq, surfaceNormal_length s, eastVector_length s,
    Vec3.dot_comm, eastVector_dot_normal s]
  norm_num

theorem northVector_eq (s : Settings) :
    northVector s = Vec3.cross (surfaceNormal s) (eastVector s) := by
  unfold northVector
  exact Vec3.normalize_of_length_one (northCross_length s)

theorem northVector_length (s : Settings) : (northVector s).length = 1 := by
  rw [northVector_eq]; exact northCross_length s

theorem northVector_dot_normal (s : Settings) :
    (northVector s).dot (surfaceNormal s) = 0 := by
  rw [northVector_eq]; exact cross_dot_left _ _

theorem east_dot_north (s : Settings) :
    (eastVector s).dot (northVector s) = 0 := by
  rw [Vec3.dot_comm, northVector_eq]; exact cross_dot_right _ _

theorem viewPre_core_length (s : Settings) :
    (Real.sin (totalRotation s) • eastVector s
      + Real.cos (totalRotation s) • northVector s).length = 1 := by
  apply length_eq_one_of_sq
  rw [length_sq_combo, eastVector_length, northVector_length, east_dot_north]
  linear_combination sin_sq_add_cos_sq (totalRotation s)

theorem viewDirectionPre_eq (s : Settings) :
    viewDirectionPre s = Real.sin (totalRotation s) • eastVector s
      + Real.cos (totalRotation s) • northVector s := by
  unfold viewDirectionPre
  exact Vec3.normalize_of_length_one (viewPre_core_length s)

theorem viewDirectionPre_length (s : Settings) :
    (viewDirectionPre s).length = 1 := by
  rw [viewDirectionPre_eq]; exact viewPre_core_length s

theorem viewDirectionPre_dot_normal (s : Settings) :
    (viewDirectionPre s).dot (surfaceNormal s) = 0 := by
  rw [viewDirectionPre_eq, Vec3.dot_add_left, Vec3.dot_smul_left,
    Vec3.dot_smul_left, eastVector_dot_normal, northVector_dot_normal]
  ring

theorem viewDirection_eq_pre (s : Settings) :
    viewDirection s = viewDirectionPre s := by
  unfold viewDirection
  rw [viewDirectionPre_dot_normal]
  norm_num

theorem lookDirection_core_length (s : Settings) :
    (Real.cos (degToRad s.pipTilt) • viewDirection s
      + Real.sin (degToRad s.pipTilt) • surfaceNormal s).length = 1 := by
  apply length_eq_one_of_sq
  rw [viewDirection_eq_pre, length_sq_combo, viewDirectionPre_length,
    surfaceNormal_length, viewDirectionPre_dot_normal]
  linear_combination sin_sq_add_cos_sq (degToRad s.pipTilt)

theorem lookDirection_length (s : Settings) : (lookDirection s).length = 1 := by
  unfold lookDirection
  rw [Vec3.normalize_of_length_one (lookDirection_core_length s)]
  exact lookDirection_core_length s

/-- C8: the tangent-plane view direction has dot product with the surface
normal within `1e-3` of zero, both before and after the corrective
re-projection (over the reals both dot products are exactly zero and the
re-projection branch never fires). -/
theorem viewDirection_perpendicular (s : Settings) :
    |(viewDirectionPre s).dot (surfaceNormal s)| ≤ 1 / 1000 ∧
      |(viewDirection s).dot (surfaceNormal s)| ≤ 1 / 1000 := by
  rw [viewDirection_eq_pre, viewDirectionPre_dot_normal]
  norm_num

/-- C7: the look direction is the normalized blend
`cos(tiltRad) · viewDirection + sin(tiltRad) · surfaceNormal` for every
settings record, and at `pipTilt = 90` it is purely the surface normal. -/
theorem lookDirection_blend (s : Settings) :
    lookDirection s = (Real.cos (degToRad s.pipTilt) • viewDirection s
        + Real.sin (degToRad s.pipTilt) • surfaceNormal s).normalize ∧
      (s.pipTilt = 90 → lookDirection s = surfaceNormal s) := by
  refine ⟨rfl, fun h => ?_⟩
  have h90 : degToRad (90 : ℝ) = Real.pi / 2 := by unfold degToRad; ring
  unfold lookDirection
  rw [h, h90, Real.cos_pi_div_two, Real.sin_pi_div_two]
  rw [show (0 : ℝ) • viewDirection s + (1 : ℝ) • surfaceNormal s
      = surfaceNormal s by ext <;> simp]
  exact Vec3.normalize_of_length_one (surfaceNormal_length s)

/-- Witness for the tilt blend at `pipTilt = 90`. -/
theorem lookDirection_blend_witness :
    Settings.pipTilt ⟨0, 0, 12, 0, 23.5, 0, 90, 0.2, 75⟩ = 90 ∧
      lookDirection ⟨0, 0, 12, 0, 23.5, 0, 90, 0.2, 75⟩
        = surfaceNormal ⟨0, 0, 12, 0, 23.5, 0, 90, 0.2, 75⟩ :=
  ⟨rfl, (lookDirection_blend _).2 rfl⟩

theorem surfaceNormal_y_at_pole (s : Settings)
    (h : s.latitude = 90 ∨ s.latitude = -90) :
    |(surfaceNormal s).y| = |Real.cos (degToRad s.earthTilt)| := by
  have hR0 : (0 : ℝ) < EARTH_RADIUS := by norm_num [EARTH_RADIUS]
  have hsn : (surfaceNormal s).y = EARTH_RADIUS⁻¹ * (markerRaw s).y := by
    rw [surfaceNormal_eq]
    unfold markerNormal Vec3.normalize
    rw [markerRaw_length]
    simp
  have hy : |(markerRaw s).y|
      = EARTH_RADIUS * |Real.cos (degToRad s.earthTilt)| := by
    rcases h with h | h
    · have h0 : degToRad (90 - s.latitude) = 0 := by
        rw [h]; unfold degToRad; ring
      have hyv : (markerRaw s).y
          = EARTH_RADIUS * Real.cos (degToRad s.earthTilt) := by
        unfold markerRaw bodyRotate rotZ rotY rawPosition
        rw [h0]
        simp
      rw [hyv, abs_mul, abs_of_pos hR0]
    · have h0 : degToRad (90 - s.latitude) = Real.pi := by
        rw [h]; unfold degToRad; ring
      have hyv : (markerRaw s).y
          = -(EARTH_RADIUS * Real.cos (degToRad s.earthTilt)) := by
        unfold markerRaw bodyRotate rotZ rotY rawPosition
        rw [h0]
        simp
      rw [hyv, abs_neg, abs_mul, abs_of_pos hR0]
  rw [hsn, abs_mul, abs_of_pos (inv_pos.mpr hR0), hy, ← mul_assoc,
    inv_mul_cancel₀ hR0.ne', one_mul]

theorem referenceVector_at_pole (s : Settings)
    (h : s.latitude = 90 ∨ s.latitude = -90) :
    (referenceVector s = ⟨1, 0, 0⟩
      ↔ 0.9 < |Real.cos (degToRad s.earthTilt)|) := by
  unfold referenceVector
  rw [surfaceNormal_y_at_pole s h]
  by_cases hc : (0.9 : ℝ) < |Real.cos (degToRad s.earthTilt)|
  · rw [if_pos hc]
    simp [hc]
  · rw [if_neg hc]
    constructor
    · intro he
      exfalso
      have : (0 : ℝ) = 1 := congrArg Vec3.x he
      norm_num at this
    · intro hc2
      exact absurd hc2 hc

/-- C6 counterexample: the claim asserts that at the poles the reference-axis
fallback engages for any `earthTilt`; at latitude 90 with `earthTilt = 90`
the surface normal is horizontal, `|normal.y| = |cos 90°| = 0 ≤ 0.9`, and the
reference vector stays the world up axis `(0,1,0)` instead of `(1,0,0)`. -/
theorem pole_fallback_counterexample :
    referenceVector ⟨90, 0, 12, 0, 90, 0, 70, 0.2, 75⟩ = ⟨0, 1, 0⟩ ∧
      referenceVector ⟨90, 0, 12, 0, 90, 0, 70, 0.2, 75⟩ ≠ ⟨1, 0, 0⟩ := by
  have hy := surfaceNormal_y_at_pole ⟨90, 0, 12, 0, 90, 0, 70, 0.2, 75⟩
    (Or.inl rfl)
  have h90 : degToRad (Settings.earthTilt ⟨90, 0, 12, 0, 90, 0, 70, 0.2, 75⟩)
      = Real.pi / 2 := by
    unfold degToRad; ring
  rw [h90, Real.cos_pi_div_two, abs_zero] at hy
  constructor
  · unfold referenceVector
    rw [if_neg]
    rw [hy]
    norm_num
  · intro he
    have h1 := (referenceVector_at_pole _ (Or.inl rfl)).mp he
    rw [h90, Real.cos_pi_div_two, abs_zero] at h1
    norm_num at h1

/-- C6 (amended): at the poles (latitude ±90) the engine produces no
degenerate vectors — the east, north, view and look vectors are all exact
unit vectors for any orientation and view state — and the reference-axis
fallback `(1,0,0)` engages exactly when `|cos(earthTilt)| > 0.9`, i.e. for
tilts within about 25.8° of zero (in particular at the default 23.5° tilt),
not for every `earthTilt`. -/
theorem pole_safety_amended (s : Settings)
    (h : s.latitude = 90 ∨ s.latitude = -90) :
    (eastVector s).length = 1 ∧ (northVector s).length = 1 ∧
      (viewDirection s).length = 1 ∧ (lookDirection s).length = 1 ∧
      (referenceVector s = ⟨1, 0, 0⟩
        ↔ 0.9 < |Real.cos (degToRad s.earthTilt)|) := by
  refine ⟨eastVector_length s, northVector_length s, ?_, lookDirection_length s,
    referenceVector_at_pole s h⟩
  rw [viewDirection_eq_pre]
  exact viewDirectionPre_length s

/-- Witness for the amended pole-safety theorem at the north pole with zero
tilt, where the fallback does engage. -/
theorem pole_safety_amended_witness :
    (Settings.latitude ⟨90, 0, 12, 0, 0, 0, 70, 0.2, 75⟩ = 90 ∨
      Settings.latitude ⟨90, 0, 12, 0, 0, 0, 70, 0.2, 75⟩ = -90) ∧
      (eastVector ⟨90, 0, 12, 0, 0, 0, 70, 0.2, 75⟩).length = 1 ∧
      (referenceVector ⟨90, 0, 12, 0, 0, 0, 70, 0.2, 75⟩ = ⟨1, 0, 0⟩) := by
  have h := pole_safety_amended ⟨90, 0, 12, 0, 0, 0, 70, 0.2, 75⟩ (Or.inl rfl)
  refine ⟨Or.inl rfl, h.1, h.2.2.2.2.mpr ?_⟩
  have h0 : degToRad (Settings.earthTilt ⟨90, 0, 12, 0, 0, 0, 70, 0.2, 75⟩)
      = 0 := by
    unfold degToRad; ring
  rw [h0, Real.cos_zero]
  norm_num

/-- C2: the marker's body rotation is not the rotation applied to the
rendered planet mesh.  At `textureRotation = 0`, `earthTilt = 0`,
`timeOfDay = 6` the marker rotation (which never includes the time-of-day
hour angle) is the identity, while the mesh rotation turns `(1,0,0)` by the
hour angle π/2 to `(0,0,-1)`. -/
theorem marker_mesh_rotation_mismatch :
    bodyRotate (Settings.textureRotation ⟨0, 0, 6, 0, 0, 0, 70, 0.2, 75⟩)
        (Settings.earthTilt ⟨0, 0, 6, 0, 0, 0, 70, 0.2, 75⟩) ⟨1, 0, 0⟩
      = ⟨1, 0, 0⟩ ∧
    meshRotate ⟨0, 0, 6, 0, 0, 0, 70, 0.2, 75⟩ ⟨1, 0, 0⟩ = ⟨0, 0, -1⟩ ∧
    bodyRotate (Settings.textureRotation ⟨0, 0, 6, 0, 0, 0, 70, 0.2, 75⟩)
        (Settings.earthTilt ⟨0, 0, 6, 0, 0, 0, 70, 0.2, 75⟩) ⟨1, 0, 0⟩
      ≠ meshRotate ⟨0, 0, 6, 0, 0, 0, 70, 0.2, 75⟩ ⟨1, 0, 0⟩ := by
  have h1 : bodyRotate (Settings.textureRotation ⟨0, 0, 6, 0, 0, 0, 70, 0.2, 75⟩)
      (Settings.earthTilt ⟨0, 0, 6, 0, 0, 0, 70, 0.2, 75⟩) ⟨1, 0, 0⟩
      = ⟨1, 0, 0⟩ := by
    unfold bodyRotate rotZ rotY degToRad
    ext <;> simp
  have hang : Settings.textureRotation ⟨0, 0, 6, 0, 0, 0, 70, 0.2, 75⟩
      + hourAngle (Settings.timeOfDay ⟨0, 0, 6, 0, 0, 0, 70, 0.2, 75⟩)
      = Real.pi / 2 := by
    unfold hourAngle
    show (0 : ℝ) + 6 / 24 * Real.pi * 2 = Real.pi / 2
    ring
  have h2 : meshRotate ⟨0, 0, 6, 0, 0, 0, 70, 0.2, 75⟩ ⟨1, 0, 0⟩
      = ⟨0, 0, -1⟩ := by
    unfold meshRotate
    rw [hang]
    unfold rotZ rotY degToRad
    ext <;> simp
  refine ⟨h1, h2, ?_⟩
  rw [h1, h2]
  intro he
  have : (1 : ℝ) = 0 := congrArg Vec3.x he
  norm_num at this

/-- C4: every reachable value of the user tilt lies in `[10, 170]` — the
mousemove handler clamps before storing, the initial value is 70, and no
other code path writes `pipTilt` — so the tilt used by the look-direction
blend is never 0 or 180. -/
theorem reachable_pipTilt_in_range (t : ℝ) (h : ReachableTilt t) :
    10 ≤ t ∧ t ≤ 170 ∧ t ≠ 0 ∧ t ≠ 180 := by
  induction h with
  | init => norm_num
  | dragMove t d ht ih =>
    refine ⟨le_max_left _ _, max_le (by norm_num) (min_le_left _ _), ?_, ?_⟩
    · intro h0
      have h10 : (10 : ℝ) ≤ max 10 (min 170 (t - d * 0.2)) := le_max_left _ _
      rw [h0] at h10
      norm_num at h10
    · intro h0
      have h170 : max 10 (min 170 (t - d * 0.2)) ≤ 170 :=
        max_le (by norm_num) (min_le_left _ _)
      rw [h0] at h170
      norm_num at h170

/-- Witness for the tilt-range invariant at the initial value 70. -/
theorem reachable_pipTilt_in_range_witness :
    ReachableTilt 70 ∧ (10 : ℝ) ≤ 70 ∧ (70 : ℝ) ≤ 170 ∧ (70 : ℝ) ≠ 0 ∧
      (70 : ℝ) ≠ 180 :=
  ⟨ReachableTilt.init, reachable_pipTilt_in_range 70 ReachableTilt.init⟩

/-- C10: the marker position and orientation computed by
`updateLocationMarker` depend only on latitude, longitude, textureRotation
and earthTilt; settings differing only in timeOfDay, pipHeight, pipRotation,
pipTilt or pipFov produce identical marker poses. -/
theorem marker_depends_only_on_four_fields (s1 s2 : Settings)
    (h1 : s1.latitude = s2.latitude) (h2 : s1.longitude = s2.longitude)
    (h3 : s1.textureRotation = s2.textureRotation)
    (h4 : s1.earthTilt = s2.earthTilt) :
    updateLocationMarker s1 = updateLocationMarker s2 := by
  unfold updateLocationMarker markerPosition markerQuaternion markerNormal
    markerRaw
  rw [h1, h2, h3, h4]

/-- Witness: two settings agreeing on the four geographic fields but
differing in timeOfDay, pipRotation, pipTilt, pipHeight and pipFov yield the
same marker pose. -/
theorem marker_depends_only_on_four_fields_witness :
    Settings.latitude ⟨10, 20, 12, 3, 23.5, 0, 70, 0.2, 75⟩
        = Settings.latitude ⟨10, 20, 0, 3, 23.5, 1, 10, 5, 20⟩ ∧
      updateLocationMarker ⟨10, 20, 12, 3, 23.5, 0, 70, 0.2, 75⟩
        = updateLocationMarker ⟨10, 20, 0, 3, 23.5, 1, 10, 5, 20⟩ :=
  ⟨rfl, marker_depends_only_on_four_fields _ _ rfl rfl rfl rfl⟩

theorem radToDeg_atan2_mem (y x : ℝ) :
    -180 < radToDeg (atan2 y x) ∧ radToDeg (atan2 y x) ≤ 180 := by
  obtain ⟨h1, h2⟩ := Complex.arg_mem_Ioc (⟨x, y⟩ : ℂ)
  have hpos : (0 : ℝ) < 180 / Real.pi := by positivity
  unfold radToDeg atan2
  constructor
  · have hm := mul_lt_mul_of_pos_right h1 hpos
    rw [show -Real.pi * (180 / Real.pi) = -180 by field_simp <;> ring] at hm
    exact hm
  · have hm := mul_le_mul_of_nonneg_right h2 hpos.le
    rw [show Real.pi * (180 / Real.pi) = 180 by field_simp <;> ring] at hm
    exact hm

/-- C5: the picking inverse undoes the body rotation by applying the inverse
rotations in reverse order (tilt inverse first, then texture-rotation
inverse), computes latitude as `90° − arccos(clamp(y/r, −1, 1))` in degrees
with `r` the unrotated point's distance from the origin, computes longitude
as `atan2(z, x)` in degrees, and the longitude lies in `(-180, 180]` for
every hit point with nonzero radius. -/
theorem pickGeo_formula_and_range (p : Vec3) (tex tiltDeg : ℝ)
    (hp : p.length ≠ 0) :
    pickGeo p tex tiltDeg
        = (90 - radToDeg (Real.arccos (max (-1) (min 1
            ((rotY (-tex) (rotZ (-degToRad tiltDeg) p)).y
              / (rotY (-tex) (rotZ (-degToRad tiltDeg) p)).length)))),
          radToDeg (atan2 (rotY (-tex) (rotZ (-degToRad tiltDeg) p)).z
            (rotY (-tex) (rotZ (-degToRad tiltDeg) p)).x)) ∧
      -180 < (pickGeo p tex tiltDeg).2 ∧ (pickGeo p tex tiltDeg).2 ≤ 180 := by
  refine ⟨rfl, ?_, ?_⟩
  · exact (radToDeg_atan2_mem _ _).1
  · exact (radToDeg_atan2_mem _ _).2

/-- Witness for the picking formula at the hit point `(EARTH_RADIUS, 0, 0)`
with zero orientation. -/
theorem pickGeo_formula_and_range_witness :
    Vec3.length ⟨EARTH_RADIUS, 0, 0⟩ ≠ 0 ∧
      -180 < (pickGeo ⟨EARTH_RADIUS, 0, 0⟩ 0 0).2 ∧
      (pickGeo ⟨EARTH_RADIUS, 0, 0⟩ 0 0).2 ≤ 180 := by
  have hl : Vec3.length ⟨EARTH_RADIUS, 0, 0⟩ = EARTH_RADIUS := by
    unfold Vec3.length
    simp only
    rw [show EARTH_RADIUS ^ 2 + (0:ℝ) ^ 2 + (0:ℝ) ^ 2 = EARTH_RADIUS ^ 2 by ring,
      Real.sqrt_sq (by norm_num [EARTH_RADIUS])]
  have hne : Vec3.length ⟨EARTH_RADIUS, 0, 0⟩ ≠ 0 := by
    rw [hl]; norm_num [EARTH_RADIUS]
  exact ⟨hne, (pickGeo_formula_and_range ⟨EARTH_RADIUS, 0, 0⟩ 0 0 hne).2⟩

set_option maxHeartbeats 1000000 in
theorem locations_box_unique (la lo : ℝ) (p q : Location)
    (hp : p ∈ locations) (hq : q ∈ locations)
    (h1 : |p.latitude - la| < 2 ∧ |p.longitude - lo| < 2)
    (h2 : |q.latitude - la| < 2 ∧ |q.longitude - lo| < 2) : p = q := by
  obtain ⟨h1a, h1b⟩ := h1
  obtain ⟨h2a, h2b⟩ := h2
  rw [abs_sub_lt_iff] at h1a h1b h2a h2b
  obtain ⟨h1a1, h1a2⟩ := h1a
  obtain ⟨h1b1, h1b2⟩ := h1b
  obtain ⟨h2a1, h2a2⟩ := h2a
  obtain ⟨h2b1, h2b2⟩ := h2b
  have hp' : p = ⟨"New York", 40.7128, 74.0061⟩ ∨
      p = ⟨"Tokyo", 35.6833, -139.7667⟩ ∨
      p = ⟨"Rio de Janeiro", -22.544, 43.1729⟩ ∨
      p = ⟨"Sydney", -33.8688, -151.2093⟩ ∨
      p = ⟨"Cape Town", -33.9249, -18.4241⟩ ∨
      p = ⟨"Dubai", 25.2048, -55.2708⟩ ∨
      p = ⟨"Reykjavik", 64.1466, 21.9426⟩ ∨
      p = ⟨"Mount Everest", 27.9881, -86.925⟩ := by
    simpa only [locations, List.mem_cons, List.not_mem_nil, or_false] using hp
  have hq' : q = ⟨"New York", 40.7128, 74.0061⟩ ∨
      q = ⟨"Tokyo", 35.6833, -139.7667⟩ ∨
      q = ⟨"Rio de Janeiro", -22.544, 43.1729⟩ ∨
      q = ⟨"Sydney", -33.8688, -151.2093⟩ ∨
      q = ⟨"Cape Town", -33.9249, -18.4241⟩ ∨
      q = ⟨"Dubai", 25.2048, -55.2708⟩ ∨
      q = ⟨"Reykjavik", 64.1466, 21.9426⟩ ∨
      q = ⟨"Mount Everest", 27.9881, -86.925⟩ := by
    simpa only [locations, List.mem_cons, List.not_mem_nil, or_false] using hq
  clear hp hq
  rcases hp' with rfl | rfl | rfl | rfl | rfl | rfl | rfl | rfl <;>
    rcases hq' with rfl | rfl | rfl | rfl | rfl | rfl | rfl | rfl <;>
      first
        | rfl
        | (exfalso
           simp only [] at h1a1 h1a2 h1b1 h1b2 h2a1 h2a2 h2b1 h2b2
           linarith)

theorem pickGeo_markerPosition (s : Settings)
    (hlat1 : -89 ≤ s.latitude) (hlat2 : s.latitude ≤ 89)
    (hlon1 : -180 < s.longitude) (hlon2 : s.longitude ≤ 180) :
    pickGeo (markerPosition s) s.textureRotation s.earthTilt
      = (s.latitude, s.longitude) := by
  rw [markerPosition_eq]
  unfold markerRaw
  exact pickGeo_roundtrip s.latitude s.longitude s.textureRotation s.earthTilt
    surfaceOffset (by norm_num [surfaceOffset]) hlat1 hlat2 hlon1 hlon2

theorem findClosest_tokyo :
    findClosestLocation 35.6833 (-139.7667)
      = some ⟨"Tokyo", 35.6833, -139.7667⟩ := by
  unfold findClosestLocation locations
  rw [List.find?_cons_of_neg _ (by
    simp only [decide_eq_true_eq]
    rintro ⟨hA, hB⟩
    rw [abs_sub_lt_iff] at hA
    norm_num at hA)]
  exact List.find?_cons_of_pos _ (by simp only [decide_eq_true_eq]; norm_num)

/-- C9: after a successful pick, `findClosestLocation` returns a catalogued
location within 2 degrees in both coordinates — necessarily the unique, hence
nearest, such location — and its name becomes the label; when no location is
within the tolerance the label is "Custom".  Picking a hit point equal to the
placed-marker position of Tokyo (35.6833, -139.7667) yields the label
"Tokyo", not "Custom", for any texture rotation and tilt. -/
theorem pick_label_rule :
    (∀ la lo loc, findClosestLocation la lo = some loc →
        loc ∈ locations ∧ |loc.latitude - la| < 2 ∧ |loc.longitude - lo| < 2 ∧
        pickedLabel la lo = loc.name ∧
        ∀ q ∈ locations, |q.latitude - la| < 2 ∧ |q.longitude - lo| < 2 →
          q = loc) ∧
      (∀ la lo, findClosestLocation la lo = none →
        pickedLabel la lo = "Custom" ∧
        ∀ q ∈ locations, ¬(|q.latitude - la| < 2 ∧ |q.longitude - lo| < 2)) ∧
      (∀ s : Settings, s.latitude = 35.6833 → s.longitude = -139.7667 →
        pickedLabel (pickGeo (markerPosition s) s.textureRotation s.earthTilt).1
          (pickGeo (markerPosition s) s.textureRotation s.earthTilt).2
          = "Tokyo") := by
  refine ⟨?_, ?_, ?_⟩
  · intro la lo loc h
    have hmem := List.mem_of_find?_eq_some h
    have hp := List.find?_some h
    simp only [decide_eq_true_eq] at hp
    refine ⟨hmem, hp.1, hp.2, ?_, ?_⟩
    · unfold pickedLabel
      rw [h]
    · intro q hq hbox
      exact locations_box_unique la lo q loc hq hmem hbox ⟨hp.1, hp.2⟩
  · intro la lo h
    constructor
    · unfold pickedLabel
      rw [h]
    · intro q hq hbox
      have hnp := List.find?_eq_none.mp h q hq
      simp only [decide_eq_true_eq] at hnp
      exact hnp hbox
  · intro s hs1 hs2
    have h := pickGeo_markerPosition s (by rw [hs1]; norm_num)
      (by rw [hs1]; norm_num) (by rw [hs2]; norm_num) (by rw [hs2]; norm_num)
    rw [h, hs1, hs2]
    show pickedLabel 35.6833 (-139.7667) = "Tokyo"
    unfold pickedLabel
    rw [findClosest_tokyo]

/-- Witness for the label rule: picking Tokyo's placed-marker position at the
default orientation yields the label "Tokyo". -/
theorem pick_label_rule_witness :
    Settings.latitude ⟨35.6833, -139.7667, 12, 0, 23.5, 0, 70, 0.2, 75⟩
        = 35.6833 ∧
      pickedLabel
        (pickGeo (markerPosition ⟨35.6833, -139.7667, 12, 0, 23.5, 0, 70, 0.2, 75⟩)
          (Settings.textureRotation ⟨35.6833, -139.7667, 12, 0, 23.5, 0, 70, 0.2, 75⟩)
          (Settings.earthTilt ⟨35.6833, -139.7667, 12, 0, 23.5, 0, 70, 0.2, 75⟩)).1
        (pickGeo (markerPosition ⟨35.6833, -139.7667, 12, 0, 23.5, 0, 70, 0.2, 75⟩)
          (Settings.textureRotation ⟨35.6833, -139.7667, 12, 0, 23.5, 0, 70, 0.2, 75⟩)
          (Settings.earthTilt ⟨35.6833, -139.7667, 12, 0, 23.5, 0, 70, 0.2, 75⟩)).2
        = "Tokyo" :=
  ⟨rfl, pick_label_rule.2.2 _ rfl rfl⟩
